import Mathlib

/-!
Verification of the cynthionwhisperer packet-trigger engine and its vendor
control protocol, shallowly embedded from
`src/gateware/src/cynthion/gateware/analyzer/top.py` (vendor request handler,
trigger configuration registers) and
`src/gateware/src/cynthion/gateware/analyzer/analyzer.py` (capture FSM, match
pipeline, sequence FSM, record framer).

Machine integers are modelled as `Nat` with explicit `% 2^w` where the
hardware registers wrap; amaranth `Signal(range(n))` registers of bit width w
wrap at `2^w`.
-/

namespace Cyn

/-- MAX_STAGES (`TRIGGER_MAX_STAGES` in top.py and analyzer.py). -/
def TRIGGER_MAX_STAGES : Nat := 8

/-- MAX_PATTERN (`TRIGGER_MAX_PATTERN_BYTES`). -/
def TRIGGER_MAX_PATTERN_BYTES : Nat := 32

/-- `TRIGGER_CONTROL_PAYLOAD_LEN` in top.py. -/
def TRIGGER_CONTROL_PAYLOAD_LEN : Nat := 2

/-- `TRIGGER_STAGE_PAYLOAD_LEN = 4 + 32 + 32` in top.py. -/
def TRIGGER_STAGE_PAYLOAD_LEN : Nat := 68

/-- `TRIGGER_STATUS_PAYLOAD_LEN` in top.py. -/
def TRIGGER_STATUS_PAYLOAD_LEN : Nat := 5

/-- Point update of a `Nat`-indexed table (used for amaranth `Array` writes
and memory write ports). -/
def upd (f : Nat → Nat) (k v : Nat) : Nat → Nat :=
  fun i => if i = k then v else f i

/-- `USBAnalyzerTriggerConfig` (top.py): host-visible trigger configuration
registers.  `stage_offsets` are 16-bit, `stage_lengths` 8-bit,
`patterns_flat`/`masks_flat` are the `8 × 32` flat arrays of 8-bit signals
indexed by `stage * 32 + byte`. -/
structure TriggerConfig where
  enable : Bool
  armed : Bool
  output_enable : Bool
  stage_count : Nat
  stage_offsets : Nat → Nat
  stage_lengths : Nat → Nat
  patterns_flat : Nat → Nat
  masks_flat : Nat → Nat

/-- Reset values of `USBAnalyzerTriggerConfig` (top.py lines 75-100):
`output_enable` resets to 1, masks reset to `0xFF`, everything else to 0. -/
def triggerConfigReset : TriggerConfig where
  enable := false
  armed := false
  output_enable := true
  stage_count := 0
  stage_offsets := fun _ => 0
  stage_lengths := fun _ => 0
  patterns_flat := fun _ => 0
  masks_flat := fun _ => 0xFF

/-- `status_flags` (top.py lines 196-203):
`Cat(enable, armed, output_enable, trigger_out, C(0, 4))`. -/
def status_flags (enable armed output_enable trigger_out : Bool) : Nat :=
  (if enable then 1 else 0) + (if armed then 2 else 0) +
    (if output_enable then 4 else 0) + (if trigger_out then 8 else 0)

/-- The value serialized by the GET_TRIGGER_STATUS state (top.py lines
413-427): `Cat(status_flags, sequence_stage, fire_count[0:8],
fire_count[8:16], stage_count)`.  `sequence_stage` and `stage_count` are
4-bit signals (`Signal(range(9))`), so they contribute 4 bits each and the
concatenation is 8+4+8+8+4 = 32 bits wide. -/
def trigger_status_word (enable armed output_enable trigger_out : Bool)
    (sequence_stage fire_count stage_count : Nat) : Nat :=
  status_flags enable armed output_enable trigger_out +
    (sequence_stage % 16) * 2 ^ 8 +
    (fire_count % 2 ^ 16) * 2 ^ 12 +
    (stage_count % 16) * 2 ^ 28

/-- Byte `i` of a response of `len` bytes produced by
`handle_simple_data_request` from a packed word (the serializer sends the
word's bits in little-endian byte order, zero-extended to `len` bytes). -/
def respond_bytes (w len : Nat) : List Nat :=
  (List.range len).map (fun i => w / 2 ^ (8 * i) % 256)

/-- The 5 bytes the device sends for GET_TRIGGER_STATUS. -/
def trigger_status_response (enable armed output_enable trigger_out : Bool)
    (sequence_stage fire_count stage_count : Nat) : List Nat :=
  respond_bytes
    (trigger_status_word enable armed output_enable trigger_out
      sequence_stage fire_count stage_count)
    TRIGGER_STATUS_PAYLOAD_LEN

/-- The GET_TRIGGER_STATUS layout as the specification words it: byte 0 the
flags byte, byte 1 `sequence_stage`, bytes 2/3 `fire_count` low/high, byte 4
`stage_count`.  Stated for comparison with `trigger_status_response`. -/
def spec_trigger_status_response (enable armed output_enable trigger_out : Bool)
    (sequence_stage fire_count stage_count : Nat) : List Nat :=
  [status_flags enable armed output_enable trigger_out,
   sequence_stage, fire_count % 256, fire_count / 256 % 256, stage_count]

/-- Result of the SET_TRIGGER_CONTROL status stage. -/
structure ControlResult where
  regs : TriggerConfig
  stalled : Bool
  disarm_pulse : Bool

/-- SET_TRIGGER_CONTROL (top.py lines 329-366).  The two staged bytes are
`control_flags` and `control_stage_count`; `rx_count` saturates at
`TRIGGER_STAGE_PAYLOAD_LEN`.  At the status stage the commit happens only
when at least `TRIGGER_CONTROL_PAYLOAD_LEN` bytes were received, otherwise
the handler STALLs and nothing changes; when committing with `flags[0] = 0`
the handler clears `armed` and pulses the disarm strobe. -/
def set_trigger_control (t : TriggerConfig) (payload : List Nat) : ControlResult :=
  let rx_count := min payload.length TRIGGER_STAGE_PAYLOAD_LEN
  if TRIGGER_CONTROL_PAYLOAD_LEN ≤ rx_count then
    let control_flags := payload.getD 0 0 % 256
    let control_stage_count := payload.getD 1 0 % 256
    let stage_count_clamped :=
      if TRIGGER_MAX_STAGES < control_stage_count then TRIGGER_MAX_STAGES
      else control_stage_count
    let flag0 : Bool := decide (control_flags % 2 = 1)
    { regs :=
        { t with
          enable := flag0,
          output_enable := decide (control_flags / 2 % 2 = 1),
          stage_count := stage_count_clamped,
          armed := if flag0 then t.armed else false },
      stalled := false,
      disarm_pulse := !flag0 }
  else
    { regs := t, stalled := true, disarm_pulse := false }

/-- 16-bit register partial write `reg[0:8].eq(b)`. -/
def set_low_byte (v b : Nat) : Nat := v / 256 * 256 + b % 256

/-- 16-bit register partial write `reg[8:16].eq(b)`. -/
def set_high_byte (v b : Nat) : Nat := b % 256 * 256 + v % 256

/-- One received byte of a SET_TRIGGER_STAGE payload (top.py lines 372-396):
`rx_count` selects the target field.  Byte 0/1 are offset low/high, byte 2
the length clamped to `TRIGGER_MAX_PATTERN_BYTES`, byte 3 reserved, bytes
4..35 pattern bytes, bytes 36..67 mask bytes; indexes 68 and above match no
case and are dropped (in the hardware `rx_count` also stops incrementing
there). -/
def stage_write_byte (t : TriggerConfig) (stage rx_count b : Nat) : TriggerConfig :=
  if rx_count = 0 then
    { t with stage_offsets := upd t.stage_offsets stage (set_low_byte (t.stage_offsets stage) b) }
  else if rx_count = 1 then
    { t with stage_offsets := upd t.stage_offsets stage (set_high_byte (t.stage_offsets stage) b) }
  else if rx_count = 2 then
    { t with stage_lengths := (upd t.stage_lengths stage
        (if TRIGGER_MAX_PATTERN_BYTES < b % 256 then TRIGGER_MAX_PATTERN_BYTES else b % 256)) }
  else if rx_count = 3 then t
  else if rx_count < 4 + TRIGGER_MAX_PATTERN_BYTES then
    { t with patterns_flat := (upd t.patterns_flat
        (stage * TRIGGER_MAX_PATTERN_BYTES + (rx_count - 4)) (b % 256)) }
  else if rx_count < TRIGGER_STAGE_PAYLOAD_LEN then
    { t with masks_flat := (upd t.masks_flat
        (stage * TRIGGER_MAX_PATTERN_BYTES + (rx_count - (4 + TRIGGER_MAX_PATTERN_BYTES)))
        (b % 256)) }
  else t

/-- Fold of `stage_write_byte` over the received payload, tracking
`rx_count`.  SET_TRIGGER_STAGE commits each byte as it is received. -/
def apply_stage_bytes (stage : Nat) : TriggerConfig → Nat → List Nat → TriggerConfig
  | t, _, [] => t
  | t, idx, b :: rest => apply_stage_bytes stage (stage_write_byte t stage idx b) (idx + 1) rest

/-- Result of the SET_TRIGGER_STAGE status stage. -/
structure StageResult where
  regs : TriggerConfig
  stalled : Bool

/-- SET_TRIGGER_STAGE (top.py lines 369-411).  `stage_index_raw` is the low
byte of `wValue`; the write target is `stage_index_raw[0:3]` and writes only
happen for a valid index (`stage_index_raw < TRIGGER_MAX_STAGES`).  The
status stage STALLs unless the index is valid and the full 68-byte payload
was received. -/
def set_trigger_stage (t : TriggerConfig) (stage_index_raw : Nat)
    (payload : List Nat) : StageResult :=
  let valid : Bool := decide (stage_index_raw % 256 < TRIGGER_MAX_STAGES)
  let stage := stage_index_raw % TRIGGER_MAX_STAGES
  let regs := if valid then apply_stage_bytes stage t 0 payload else t
  let rx_count := min payload.length TRIGGER_STAGE_PAYLOAD_LEN
  { regs := regs,
    stalled := !(valid && TRIGGER_STAGE_PAYLOAD_LEN ≤ rx_count) }

/-- GET_TRIGGER_STAGE (top.py lines 452-483): `none` means the stage index
is out of range and the handler STALLs; otherwise the 68-byte layout
offset-low, offset-high, length, reserved-zero, 32 pattern bytes, 32 mask
bytes. -/
def get_trigger_stage (t : TriggerConfig) (stage_index_raw : Nat) : Option (List Nat) :=
  if stage_index_raw % 256 < TRIGGER_MAX_STAGES then
    let stage := stage_index_raw % TRIGGER_MAX_STAGES
    some ([t.stage_offsets stage % 256,
           t.stage_offsets stage / 256 % 256,
           t.stage_lengths stage % 256,
           0] ++
      (List.range TRIGGER_MAX_PATTERN_BYTES).map
        (fun i => t.patterns_flat (stage * TRIGGER_MAX_PATTERN_BYTES + i) % 256) ++
      (List.range TRIGGER_MAX_PATTERN_BYTES).map
        (fun i => t.masks_flat (stage * TRIGGER_MAX_PATTERN_BYTES + i) % 256))
  else none

/-- ARM_TRIGGER status stage (top.py lines 430-438): sets `armed` (the arm
strobe is pulsed the same cycle). -/
def arm_trigger (t : TriggerConfig) : TriggerConfig := { t with armed := true }

/-- DISARM_TRIGGER status stage (top.py lines 441-449): clears `armed` (the
disarm strobe is pulsed the same cycle). -/
def disarm_trigger (t : TriggerConfig) : TriggerConfig := { t with armed := false }

/-! ## The analyzer core (analyzer.py)

`USBAnalyzer` is modelled as a per-cycle step function of the `usb` clock
domain.  The memory-write requests it raises (`new_packet`, `write_packet`,
`write_header`, `write_event`) are returned as a list of `MemOp`s carrying
the register values the `sync`-domain buffer-write FSM samples while
serving them. -/

/-- `USBAnalyzerSpeed.AUTO`.
Modelled from the spec: `speeds.py` is not under `src/`; §6 of the spec
gives the 2-bit speed encoding 00=HS, 01=FS, 11=LS, 10=AUTO. -/
def USBAnalyzerSpeed_AUTO : Nat := 2

/-- `USBAnalyzerEvent` codes.
Modelled from the spec: `events.py` is not under `src/`; §3/§4.K of the
spec list rollover `0x00`, capture-stop `0x01`, capture-start `0x04|speed`,
trigger-fired `0x05`. -/
def USBAnalyzerEvent_NONE : Nat := 0x00

/-- `USBAnalyzerEvent.CAPTURE_STOP_NORMAL` (modelled from the spec, see
`USBAnalyzerEvent_NONE`). -/
def USBAnalyzerEvent_CAPTURE_STOP_NORMAL : Nat := 0x01

/-- `USBAnalyzerEvent.CAPTURE_START_BASE` (modelled from the spec, see
`USBAnalyzerEvent_NONE`). -/
def USBAnalyzerEvent_CAPTURE_START_BASE : Nat := 0x04

/-- `USBAnalyzerEvent.TRIGGER_FIRED` (modelled from the spec, see
`USBAnalyzerEvent_NONE`). -/
def USBAnalyzerEvent_TRIGGER_FIRED : Nat := 0x05

/-- A memory-write request raised towards the buffer-write FSM.
`writeHeader` carries `packet_size` and `packet_time`, `writeEvent` the
event code and `current_time`, as sampled by the `sync` FSM while the
request is held. -/
inductive MemOp where
  | newPacket : MemOp
  | writeByte : Nat → MemOp
  | writeHeader : Nat → Nat → MemOp
  | writeEvent : Nat → Nat → MemOp
deriving DecidableEq, Repr

/-- States of the core analysis FSM (analyzer.py lines 329-499).  `BABBLE`
exists in the source but no transition enters it. -/
inductive AFsm where
  | awaitStart
  | awaitPacket
  | capturePacket
  | babble
  | overrun
deriving DecidableEq, Repr

/-- Per-cycle inputs of the analyzer: the UTMI byte stream, the capture
enable, the external event strobe, the ring-buffer-full condition sampled by
the overrun check, and the view of the trigger configuration
(`USBAnalyzerTriggerConfig` signals plus the pattern/mask memory write
ports of the analyzer). -/
structure AIn where
  capture_enable : Bool
  rx_active : Bool
  rx_valid : Bool
  rx_data : Nat
  session_valid : Bool
  speed_selection : Nat
  event_strobe : Bool
  event_code : Nat
  buffer_full : Bool
  trig_enable : Bool
  trig_armed : Bool
  trig_output_enable : Bool
  trig_stage_count : Nat
  trig_stage_offsets : Nat → Nat
  trig_stage_lengths : Nat → Nat
  arm_strobe : Bool
  disarm_strobe : Bool
  pattern_write_en : Bool
  pattern_write_addr : Nat
  pattern_write_data : Nat
  mask_write_en : Bool
  mask_write_addr : Nat
  mask_write_data : Nat

/-- `usb`-domain registers of `USBAnalyzer`.  Bit widths (wrap moduli):
`current_time`, `packet_size`, `packet_time`, `trigger_fire_count` 16 bits;
`packet_byte_index` 11 bits (`range(1028)`); `stage_match_count` 6 bits
(`range(33)`); `seq_expected_stage` 4 bits (`range(9)`).
`pattern_read_data` / `mask_read_data` are the registered outputs of the
non-transparent pattern/mask memory read ports; `pattern_mem` / `mask_mem`
the 256-entry memories themselves (reset: pattern 0x00, mask 0xFF). -/
structure AState where
  fsm : AFsm
  current_time : Nat
  packet_size : Nat
  packet_time : Nat
  packet_byte_index : Nat
  stage_mismatch : Bool
  stage_match_count : Nat
  seq_expected_stage : Nat
  pending_trigger_event : Bool
  pending_stage_compare : Bool
  pending_stage_byte : Nat
  pattern_read_data : Nat
  mask_read_data : Nat
  trigger_fire_count : Nat
  trigger_toggle_out : Bool
  trigger_fire_strobe : Bool
  pattern_mem : Nat → Nat
  mask_mem : Nat → Nat

/-- Analyzer reset state. -/
def aReset : AState where
  fsm := .awaitStart
  current_time := 0
  packet_size := 0
  packet_time := 0
  packet_byte_index := 0
  stage_mismatch := false
  stage_match_count := 0
  seq_expected_stage := 0
  pending_trigger_event := false
  pending_stage_compare := false
  pending_stage_byte := 0
  pattern_read_data := 0
  mask_read_data := 0
  trigger_fire_count := 0
  trigger_toggle_out := false
  trigger_fire_strobe := false
  pattern_mem := fun _ => 0
  mask_mem := fun _ => 0xFF

/-- `active_stage_index = seq_expected_stage[0:3]` (analyzer.py line 227). -/
def active_stage_index (s : AState) : Nat := s.seq_expected_stage % 8

/-- `active_stage_offset` (line 228): the active stage's 16-bit offset. -/
def active_stage_offset (i : AIn) (s : AState) : Nat :=
  i.trig_stage_offsets (active_stage_index s) % 2 ^ 16

/-- `active_stage_len` (lines 229-236): the 8-bit raw length clamped to
`max_pattern`. -/
def active_stage_len (i : AIn) (s : AState) : Nat :=
  let raw := i.trig_stage_lengths (active_stage_index s) % 256
  if TRIGGER_MAX_PATTERN_BYTES < raw then TRIGGER_MAX_PATTERN_BYTES else raw

/-- `active_stage_valid` (lines 237-242): both comparands are 4-bit
registers. -/
def active_stage_valid (i : AIn) (s : AState) : Bool :=
  i.trig_enable && i.trig_armed &&
    decide (s.seq_expected_stage % 16 < i.trig_stage_count % 16) &&
    decide (s.seq_expected_stage % 16 < TRIGGER_MAX_STAGES)

/-- `stage_window_hit` (lines 243-247). -/
def stage_window_hit (i : AIn) (s : AState) : Bool :=
  active_stage_valid i s &&
    decide (active_stage_offset i s ≤ s.packet_byte_index) &&
    decide (s.packet_byte_index < active_stage_offset i s + active_stage_len i s)

/-- `pattern_flat_index = active_stage_index * max_pattern + pattern_index`
(lines 248-249).  `pattern_index` is the 5-bit difference
`packet_byte_index - active_stage_offset`; it is only consumed while
`stage_window_hit` holds, where the subtraction does not underflow, so
truncated `Nat` subtraction agrees with the hardware value there. -/
def pattern_flat_index (i : AIn) (s : AState) : Nat :=
  active_stage_index s * TRIGGER_MAX_PATTERN_BYTES +
    (s.packet_byte_index - active_stage_offset i s) % 32

/-- `pending_stage_mismatch` (lines 260-263): the masked compare of the
pended byte against the registered pattern/mask read data. -/
def pending_stage_mismatch (s : AState) : Bool :=
  decide (Nat.land s.pending_stage_byte s.mask_read_data ≠
    Nat.land s.pattern_read_data s.mask_read_data)

/-- `stage_mismatch_effective` (line 264): sticky mismatch or an in-flight
pending compare that mismatches. -/
def stage_mismatch_effective (s : AState) : Bool :=
  s.stage_mismatch || (s.pending_stage_compare && pending_stage_mismatch s)

/-- The end-of-packet full-match condition (analyzer.py lines 464-470).
This is also the condition the specification names `full_match`. -/
def full_match (i : AIn) (s : AState) : Bool :=
  active_stage_valid i s &&
    decide (0 < active_stage_len i s) &&
    !stage_mismatch_effective s &&
    decide (s.stage_match_count = active_stage_len i s) &&
    decide (active_stage_offset i s + active_stage_len i s ≤ s.packet_size)

/-- `AWAIT_START` body (lines 339-359); `s0` carries the cycle's default
assignments (`current_time + 1`, fire strobe cleared). -/
def step_await_start (i : AIn) (s s0 : AState) : AState × List MemOp :=
  let base :=
    { s0 with
      current_time := 0, packet_byte_index := 0, stage_mismatch := false,
      stage_match_count := 0, pending_stage_compare := false,
      seq_expected_stage := 0, pending_trigger_event := false }
  if i.capture_enable && !i.rx_active then
    ({ base with fsm := .awaitPacket },
     [MemOp.writeEvent (USBAnalyzerEvent_CAPTURE_START_BASE ||| i.speed_selection % 4)
        s.current_time])
  else (base, [])

/-- `AWAIT_PACKET` body (lines 363-422): sequence resets on
disarm/­disable/­unarmed and on the arm strobe, then the prioritized
branches stop > pending trigger event > new packet > external event >
timestamp rollover. -/
def step_await_packet (i : AIn) (s s0 : AState) : AState × List MemOp :=
  let seq' :=
    if i.disarm_strobe || !i.trig_enable || !i.trig_armed || i.arm_strobe then 0
    else s0.seq_expected_stage
  let base := { s0 with seq_expected_stage := seq' }
  if !i.capture_enable then
    ({ base with fsm := .awaitStart },
     [MemOp.writeEvent USBAnalyzerEvent_CAPTURE_STOP_NORMAL s.current_time])
  else if s.pending_trigger_event then
    ({ base with pending_trigger_event := false, current_time := 1 },
     [MemOp.writeEvent USBAnalyzerEvent_TRIGGER_FIRED s.current_time])
  else if i.rx_active && i.session_valid &&
      decide (i.speed_selection % 4 ≠ USBAnalyzerSpeed_AUTO) then
    ({ base with
        fsm := .capturePacket, packet_size := 0, packet_time := s.current_time,
        current_time := 0, packet_byte_index := 0, stage_mismatch := false,
        stage_match_count := 0, pending_stage_compare := false },
     [MemOp.newPacket])
  else if i.event_strobe then
    ({ base with current_time := 1 },
     [MemOp.writeEvent (i.event_code % 256) s.current_time])
  else if s.current_time = 0xFFFF then
    (base, [MemOp.writeEvent USBAnalyzerEvent_NONE s.current_time])
  else (base, [])

/-- `CAPTURE_PACKET` body (lines 426-483): resolve the pipelined compare,
capture a byte when `rx_valid & rx_active` (with overrun check), and on
`rx_active` deasserting commit the header and evaluate the sequence FSM
(fire when `seq_expected_stage + 1 >= stage_count`, else advance). -/
def step_capture_packet (i : AIn) (s s0 : AState) : AState × List MemOp :=
  let byte_received := i.rx_valid && i.rx_active
  let mismatch' :=
    if s.pending_stage_compare && pending_stage_mismatch s then true else s0.stage_mismatch
  let base := { s0 with pending_stage_compare := false, stage_mismatch := mismatch' }
  if byte_received then
    let withByte :=
      { base with
        packet_size := (s.packet_size + 1) % 2 ^ 16,
        packet_byte_index := (s.packet_byte_index + 1) % 2 ^ 11 }
    let withMatch :=
      if stage_window_hit i s then
        { withByte with
          stage_match_count := (s.stage_match_count + 1) % 2 ^ 6,
          pending_stage_compare := true,
          pending_stage_byte := i.rx_data % 256 }
      else withByte
    (if i.buffer_full then { withMatch with fsm := .overrun } else withMatch,
     [MemOp.writeByte (i.rx_data % 256)])
  else if !i.rx_active then
    let next :=
      if full_match i s then
        if i.trig_stage_count % 16 ≤ s.seq_expected_stage % 16 + 1 then
          let fired :=
            { base with
              fsm := .awaitPacket, seq_expected_stage := 0,
              trigger_fire_strobe := true,
              trigger_fire_count := (s.trigger_fire_count + 1) % 2 ^ 16,
              pending_trigger_event := true }
          if i.trig_output_enable then
            { fired with trigger_toggle_out := !s.trigger_toggle_out }
          else fired
        else
          { base with
            fsm := .awaitPacket,
            seq_expected_stage := (s.seq_expected_stage + 1) % 16 }
      else { base with fsm := .awaitPacket }
    (next, [MemOp.writeHeader s.packet_size s.packet_time])
  else (base, [])

/-- `OVERRUN` body (lines 494-499). -/
def step_overrun (i : AIn) (s0 : AState) : AState × List MemOp :=
  if !i.capture_enable then ({ s0 with fsm := .awaitStart }, []) else (s0, [])

/-- One `usb`-domain clock cycle of `USBAnalyzer`.  The defaults
(`current_time + 1`, fire strobe cleared, lines 321-324) are applied first
and may be overridden by the FSM body; the pattern/mask read ports register
new data whenever `stage_window_hit` enables them, and the write ports
apply the trigger interface's write requests. -/
def analyzerStep (i : AIn) (s : AState) : AState × List MemOp :=
  let s0 :=
    { s with
      current_time := (s.current_time + 1) % 2 ^ 16,
      trigger_fire_strobe := false }
  let body :=
    match s.fsm with
    | .awaitStart => step_await_start i s s0
    | .awaitPacket => step_await_packet i s s0
    | .capturePacket => step_capture_packet i s s0
    | .babble => (s0, [])
    | .overrun => step_overrun i s0
  let s1 := body.1
  let s2 :=
    { s1 with
      pattern_read_data :=
        if stage_window_hit i s then s.pattern_mem (pattern_flat_index i s)
        else s.pattern_read_data,
      mask_read_data :=
        if stage_window_hit i s then s.mask_mem (pattern_flat_index i s)
        else s.mask_read_data,
      pattern_mem :=
        if i.pattern_write_en then
          upd s.pattern_mem (i.pattern_write_addr % 256) (i.pattern_write_data % 256)
        else s.pattern_mem,
      mask_mem :=
        if i.mask_write_en then
          upd s.mask_mem (i.mask_write_addr % 256) (i.mask_write_data % 256)
        else s.mask_mem }
  (s2, body.2)

/-- Run the analyzer over a list of per-cycle inputs, collecting the raised
memory operations in order. -/
def analyzer_run : AState → List AIn → AState × List MemOp
  | s, [] => (s, [])
  | s, i :: rest =>
    let c := analyzerStep i s
    let r := analyzer_run c.1 rest
    (r.1, c.2 ++ r.2)

/-! ## The buffer-write FSM (analyzer.py lines 502-575)

The ring buffer is a 4096-word × 16-bit memory (`mem_depth` default 4096;
8192 bytes).  The 16→8 output path sends each word's high lane first, and a
packet byte at an even byte address is written to the high lane
(`en = 0b10`), so the memory is modelled byte-addressed, with a 16-bit word
write at word address `w` placing the value's high byte at byte `2*w` and
its low byte at `2*w + 1` (matching the big-endian order on the stream). -/

/-- Ring-buffer size in bytes (`mem_depth = 4096` words). -/
def MEM_SIZE_BYTES : Nat := 8192

/-- `sync`-domain state of the buffer-write FSM: the byte-granular write
pointer, the pending header slot, the uncommitted word count, the committed
FIFO word count, and the memory contents.  `commit_count` counts the
`data_commit` pulses (one per finished record). -/
structure FramerState where
  write_byte_addr : Nat
  header_word_addr : Nat
  fifo_words_pending : Nat
  fifo_word_count : Nat
  commit_count : Nat
  mem : Nat → Nat

/-- A 16-bit word write with both byte lanes enabled (`en = 0b11`):
high byte to byte address `2*w`, low byte to `2*w + 1`. -/
def write_mem_word (mem : Nat → Nat) (word_addr v : Nat) : Nat → Nat :=
  upd (upd mem (2 * (word_addr % 4096)) (v / 256 % 256)) (2 * (word_addr % 4096) + 1) (v % 256)

/-- One memory operation as served by the buffer-write FSM
(`START`/`FINISH_HEADER`/`FINISH_EVENT` states):

* `newPacket` word-aligns the write pointer, records the header slot and
  pre-allocates the 2 header words;
* `writeByte` writes one byte lane and counts a pending word whenever the
  byte address is even;
* `writeHeader` writes `packet_size` then `packet_time` into the header
  slot and commits the pending words;
* `writeEvent` writes `Cat(event_code, 0xFF)` then the timestamp at the
  aligned pointer and commits its 2 words. -/
def framer_step (fs : FramerState) : MemOp → FramerState
  | .newPacket =>
    let aligned := (fs.write_byte_addr + fs.write_byte_addr % 2) % MEM_SIZE_BYTES
    { fs with
      header_word_addr := aligned / 2,
      fifo_words_pending := 2,
      write_byte_addr := (aligned + 4) % MEM_SIZE_BYTES }
  | .writeByte b =>
    { fs with
      mem := upd fs.mem (fs.write_byte_addr % MEM_SIZE_BYTES) (b % 256),
      fifo_words_pending := (fs.fifo_words_pending + (1 - fs.write_byte_addr % 2)) % 2 ^ 11,
      write_byte_addr := (fs.write_byte_addr + 1) % MEM_SIZE_BYTES }
  | .writeHeader size time =>
    { fs with
      mem := write_mem_word (write_mem_word fs.mem fs.header_word_addr size)
        (fs.header_word_addr + 1) time,
      fifo_word_count := fs.fifo_word_count + fs.fifo_words_pending,
      commit_count := fs.commit_count + 1 }
  | .writeEvent code time =>
    let aligned := (fs.write_byte_addr + fs.write_byte_addr % 2) % MEM_SIZE_BYTES
    { fs with
      mem := write_mem_word (write_mem_word fs.mem (aligned / 2) (0xFF * 256 + code % 256))
        (aligned / 2 + 1) time,
      header_word_addr := aligned / 2,
      fifo_words_pending := 2,
      write_byte_addr := (aligned + 4) % MEM_SIZE_BYTES,
      fifo_word_count := fs.fifo_word_count + 2,
      commit_count := fs.commit_count + 1 }

/-- Serve a list of memory operations in order. -/
def framer_run : FramerState → List MemOp → FramerState
  | fs, [] => fs
  | fs, op :: rest => framer_run (framer_step fs op) rest

/-- The bytes of a committed packet record: 2-byte big-endian length,
2-byte big-endian timestamp, then the payload. -/
def packet_record (n t : Nat) (payload : List Nat) : List Nat :=
  [n / 256 % 256, n % 256, t / 256 % 256, t % 256] ++ payload

/-! ## The combined top-level system (top.py `USBAnalyzerApplet`)

The vendor handler's `USBAnalyzerTriggerConfig` registers and the analyzer
run in the same `usb` clock domain.  Each `SysAction` is one event of a
run: a committed vendor transfer or an arm/disarm status stage (with the
matching strobe fed to the analyzer's cycle), or a plain analyzer cycle.
`USBAnalyzerTriggerConfig` provides no `pattern_write_en` /
`mask_write_en` write-port signals, and the vendor handler writes the
`patterns_flat` / `masks_flat` signal arrays, which the analyzer's match
pipeline never reads: the analyzer compares against its internal
`pattern_mem` / `mask_mem` memories, whose write ports stay idle in this
wiring.  `cfg_to_input` reflects that by driving the write-port inputs
low. -/

/-- External (non-trigger) inputs of one analyzer cycle. -/
structure ExtIn where
  capture_enable : Bool
  rx_active : Bool
  rx_valid : Bool
  rx_data : Nat
  session_valid : Bool
  speed_selection : Nat
  event_strobe : Bool
  event_code : Nat
  buffer_full : Bool

/-- Build the analyzer's input from the trigger registers, the external
inputs and the handler strobes of the cycle. -/
def cfg_to_input (t : TriggerConfig) (e : ExtIn) (armS disarmS : Bool) : AIn where
  capture_enable := e.capture_enable
  rx_active := e.rx_active
  rx_valid := e.rx_valid
  rx_data := e.rx_data
  session_valid := e.session_valid
  speed_selection := e.speed_selection
  event_strobe := e.event_strobe
  event_code := e.event_code
  buffer_full := e.buffer_full
  trig_enable := t.enable
  trig_armed := t.armed
  trig_output_enable := t.output_enable
  trig_stage_count := t.stage_count
  trig_stage_offsets := t.stage_offsets
  trig_stage_lengths := t.stage_lengths
  arm_strobe := armS
  disarm_strobe := disarmS
  pattern_write_en := false
  pattern_write_addr := 0
  pattern_write_data := 0
  mask_write_en := false
  mask_write_addr := 0
  mask_write_data := 0

/-- Combined state: trigger registers plus analyzer registers. -/
structure SysState where
  cfg : TriggerConfig
  ana : AState

/-- Reset state of the combined system. -/
def sysReset : SysState where
  cfg := triggerConfigReset
  ana := aReset

/-- One event of a top-level run. -/
inductive SysAction where
  | vendorControl : List Nat → ExtIn → SysAction
  | vendorStage : Nat → List Nat → ExtIn → SysAction
  | armAction : ExtIn → SysAction
  | disarmAction : ExtIn → SysAction
  | plainCycle : ExtIn → SysAction

/-- Apply one event.  The analyzer's cycle sees the pre-commit register
values together with the strobe the handler pulses on that cycle; the
register update is visible from the next cycle on. -/
def sysStep (s : SysState) : SysAction → SysState
  | .vendorControl payload e =>
    let r := set_trigger_control s.cfg payload
    { cfg := r.regs,
      ana := (analyzerStep (cfg_to_input s.cfg e false r.disarm_pulse) s.ana).1 }
  | .vendorStage stageRaw payload e =>
    { cfg := (set_trigger_stage s.cfg stageRaw payload).regs,
      ana := (analyzerStep (cfg_to_input s.cfg e false false) s.ana).1 }
  | .armAction e =>
    { cfg := arm_trigger s.cfg,
      ana := (analyzerStep (cfg_to_input s.cfg e true false) s.ana).1 }
  | .disarmAction e =>
    { cfg := disarm_trigger s.cfg,
      ana := (analyzerStep (cfg_to_input s.cfg e false true) s.ana).1 }
  | .plainCycle e =>
    { cfg := s.cfg,
      ana := (analyzerStep (cfg_to_input s.cfg e false false) s.ana).1 }

/-- Apply a list of events in order. -/
def sys_run (s : SysState) (acts : List SysAction) : SysState :=
  acts.foldl sysStep s

/-- The states the combined system can reach from reset. -/
inductive SysReachable : SysState → Prop
  | init : SysReachable sysReset
  | step {s : SysState} (a : SysAction) : SysReachable s → SysReachable (sysStep s a)

/-! ## Concrete inputs and helpers used by the claim theorems -/

/-- An all-quiet analyzer input (everything deasserted). -/
def inQuiet : AIn where
  capture_enable := false
  rx_active := false
  rx_valid := false
  rx_data := 0
  session_valid := true
  speed_selection := 0
  event_strobe := false
  event_code := 0
  buffer_full := false
  trig_enable := false
  trig_armed := false
  trig_output_enable := false
  trig_stage_count := 0
  trig_stage_offsets := fun _ => 0
  trig_stage_lengths := fun _ => 0
  arm_strobe := false
  disarm_strobe := false
  pattern_write_en := false
  pattern_write_addr := 0
  pattern_write_data := 0
  mask_write_en := false
  mask_write_addr := 0
  mask_write_data := 0

/-- One capture cycle input: capture enabled, a byte on the UTMI stream,
trigger subsystem quiet. -/
def capture_in (b : Nat) : AIn :=
  { inQuiet with capture_enable := true, rx_active := true, rx_valid := true, rx_data := b }

/-- The end-of-packet cycle: `rx_active` deasserted. -/
def capture_end : AIn := { inQuiet with capture_enable := true }

/-- External inputs of an idle cycle with capture enabled. -/
def ext0 : ExtIn where
  capture_enable := true
  rx_active := false
  rx_valid := false
  rx_data := 0
  session_valid := true
  speed_selection := 0
  event_strobe := false
  event_code := 0
  buffer_full := false

/-- External inputs of a cycle carrying one packet byte. -/
def extByte (b : Nat) : ExtIn :=
  { ext0 with rx_active := true, rx_valid := true, rx_data := b }

/-- Reset state of the buffer-write FSM. -/
def framerReset : FramerState where
  write_byte_addr := 0
  header_word_addr := 0
  fifo_words_pending := 0
  fifo_word_count := 0
  commit_count := 0
  mem := fun _ => 0

/-- Consecutive byte writes into a table starting at index `k` (the normal
form of a run of pattern/mask byte commits). -/
def write_seq (f : Nat → Nat) (k : Nat) : List Nat → Nat → Nat
  | [] => f
  | b :: rest => write_seq (upd f k (b % 256)) (k + 1) rest

/-- Number of even addresses among `a, a+1, …, a+n-1` (the packet bytes
that open a fresh 16-bit word, hence increment `fifo_words_pending`). -/
def evens_from : Nat → Nat → Nat
  | _, 0 => 0
  | a, n + 1 => (1 - a % 2) + evens_from (a + 1) n

/-- A 68-byte SET_TRIGGER_STAGE payload: offset 0, length 1, pattern first
byte `pb`, masks all `0xFF`. -/
def stage_payload1 (pb : Nat) : List Nat :=
  [0, 0, 1, 0] ++ (pb :: List.replicate 31 0) ++ List.replicate 32 0xFF

/-- A system run that programs stage 0 to match one byte `pb` at offset 0
via the vendor protocol, arms, and captures the single-byte packet `[b]`. -/
def program_and_capture (flags stage_count pb b : Nat) : List SysAction :=
  [.vendorControl [flags, stage_count] ext0,
   .vendorStage 0 (stage_payload1 pb) ext0,
   .armAction ext0,
   .plainCycle ext0,
   .plainCycle (extByte b),
   .plainCycle (extByte b),
   .plainCycle ext0]

/-- C7's scenario: two-stage sequence, stage 0 matched (the internal
pattern memory holds 0x00 and the packet byte is 0x00), then a
SET_TRIGGER_CONTROL lowers `stage_count` to 0 while `sequence_stage = 1`. -/
def c7_trace : List SysAction :=
  program_and_capture 3 2 0 0 ++ [.vendorControl [3, 0] ext0]

/-- C2's scenario: single-stage trigger programmed via the vendor protocol
to match pattern byte `0xAA` at offset 0, then the matching packet
`[0xAA]` is captured. -/
def c2_trace : List SysAction := program_and_capture 3 1 0xAA 0xAA

/-- Single-stage trigger input view used by concrete end-of-packet
scenarios: stage 0 with offset 0 and length 1, trigger enabled/armed,
output enabled. -/
def c3_in : AIn :=
  { inQuiet with
    trig_enable := true, trig_armed := true, trig_output_enable := true,
    trig_stage_count := 1, trig_stage_lengths := fun _ => 1 }

/-- End-of-packet analyzer state with one matched byte captured. -/
def c3_st : AState :=
  { aReset with fsm := AFsm.capturePacket, packet_size := 1, stage_match_count := 1 }

/-- An idle `AWAIT_PACKET` state at timestamp 3 (used by the C6 witness). -/
def c6_st : AState := { aReset with fsm := AFsm.awaitPacket, current_time := 3 }

/-! ## Claim theorems -/

/-- C1: the claim states that the GET_TRIGGER_STATUS response has byte 1
equal to `sequence_stage`, bytes 2/3 the low/high bytes of `fire_count`,
and byte 4 equal to `stage_count`.  The code concatenates `sequence_stage`
and `stage_count` as 4-bit fields, so the packed word is 32 bits wide and
the fields land misaligned: with `enable = armed = 1`, `sequence_stage = 0`,
`fire_count = 1`, `stage_count = 1` the device answers
`[0x03, 0x10, 0x00, 0x10, 0x00]` whereas the claimed layout is
`[0x03, 0x00, 0x01, 0x00, 0x01]`. -/
theorem C1_status_layout_mispacked :
    trigger_status_response true true false false 0 1 1 = [0x03, 0x10, 0x00, 0x10, 0x00] ∧
    spec_trigger_status_response true true false false 0 1 1 = [0x03, 0x00, 0x01, 0x00, 0x01] ∧
    trigger_status_response true true false false 0 1 1 ≠
      spec_trigger_status_response true true false false 0 1 1 := by
  decide

/-- C4 (amended): a short OUT payload on SET_TRIGGER_CONTROL or
SET_TRIGGER_STAGE STALLs the status stage; SET_TRIGGER_CONTROL leaves all
trigger state unchanged, but SET_TRIGGER_STAGE commits each byte as it is
received, so only the fields beyond the received prefix are guaranteed
unchanged. -/
theorem C4_short_payload_stalls (t : TriggerConfig) (p q : List Nat) (stageRaw : Nat)
    (hp : p.length < TRIGGER_CONTROL_PAYLOAD_LEN)
    (hq : q.length < TRIGGER_STAGE_PAYLOAD_LEN) :
    (set_trigger_control t p).stalled = true ∧
    (set_trigger_control t p).regs = t ∧
    (set_trigger_stage t stageRaw q).stalled = true := by
  have h1 : ¬ (TRIGGER_CONTROL_PAYLOAD_LEN ≤ min p.length TRIGGER_STAGE_PAYLOAD_LEN) := by
    simp [TRIGGER_CONTROL_PAYLOAD_LEN, TRIGGER_STAGE_PAYLOAD_LEN] at hp ⊢
    omega
  have h2 : ¬ (TRIGGER_STAGE_PAYLOAD_LEN ≤ min q.length TRIGGER_STAGE_PAYLOAD_LEN) := by
    simp [TRIGGER_STAGE_PAYLOAD_LEN] at hq ⊢
    omega
  refine ⟨?_, ?_, ?_⟩
  · simp [set_trigger_control, h1]
  · simp [set_trigger_control, h1]
  · simp [set_trigger_stage, h2]

/-- C4 witness: the theorem applied to a 1-byte control payload and an
empty stage payload. -/
theorem C4_witness :
    (set_trigger_control triggerConfigReset [7]).stalled = true ∧
    (set_trigger_control triggerConfigReset [7]).regs = triggerConfigReset ∧
    (set_trigger_stage triggerConfigReset 1 []).stalled = true :=
  C4_short_payload_stalls triggerConfigReset [7] [] 1 (by decide) (by decide)

/-- C4 counterexample: a 1-byte SET_TRIGGER_STAGE payload STALLs the status
stage as claimed, but the single received byte has already overwritten the
low byte of stage 0's offset, so the trigger state is not unchanged. -/
theorem C4_stage_short_payload_mutates :
    (set_trigger_stage triggerConfigReset 0 [0x55]).stalled = true ∧
    (set_trigger_stage triggerConfigReset 0 [0x55]).regs.stage_offsets 0 = 0x55 ∧
    triggerConfigReset.stage_offsets 0 = 0 := by
  decide

/-- C5 (amended): `fire_count` is a 16-bit wrapping counter: each firing
increments it by one modulo `2^16`; at `0xFFFF` the next firing wraps it to
0 rather than saturating. -/
theorem C5_fire_count_increments_mod (i : AIn) (s : AState)
    (hf : s.fsm = AFsm.capturePacket) (hrx : i.rx_active = false)
    (hm : full_match i s = true)
    (hfire : i.trig_stage_count % 16 ≤ s.seq_expected_stage % 16 + 1) :
    (analyzerStep i s).1.trigger_fire_count = (s.trigger_fire_count + 1) % 2 ^ 16 := by
  simp only [analyzerStep, hf, step_capture_packet]
  simp only [hrx, hm, Bool.and_false, Bool.false_eq_true, if_false, Bool.not_false,
    if_true, ite_true, ite_false, if_pos hfire]
  split <;> rfl

/-- C5 witness: the theorem applied to a firing end-of-packet cycle with
`fire_count = 5`. -/
theorem C5_witness :
    (analyzerStep
        { inQuiet with trig_enable := true, trig_armed := true, trig_stage_count := 1,
                       trig_stage_lengths := fun _ => 1 }
        { aReset with fsm := AFsm.capturePacket, packet_size := 1, stage_match_count := 1,
                      trigger_fire_count := 5 }).1.trigger_fire_count = (5 + 1) % 2 ^ 16 :=
  C5_fire_count_increments_mod _ _ rfl rfl (by decide) (by decide)

/-- C5 counterexample: a firing with `fire_count = 0xFFFF` wraps the
counter to 0 instead of leaving it at 0xFFFF. -/
theorem C5_fire_at_max_wraps_to_zero :
    (analyzerStep
        { inQuiet with trig_enable := true, trig_armed := true, trig_stage_count := 1,
                       trig_stage_lengths := fun _ => 1 }
        { aReset with fsm := AFsm.capturePacket, packet_size := 1, stage_match_count := 1,
                      trigger_fire_count := 0xFFFF }).1.trigger_fire_strobe = true ∧
    (analyzerStep
        { inQuiet with trig_enable := true, trig_armed := true, trig_stage_count := 1,
                       trig_stage_lengths := fun _ => 1 }
        { aReset with fsm := AFsm.capturePacket, packet_size := 1, stage_match_count := 1,
                      trigger_fire_count := 0xFFFF }).1.trigger_fire_count = 0 := by
  decide

/-- C8 (amended): while capture stays enabled, a set `pending_trigger_event`
makes the trigger-fired event record the very next record written from
`AWAIT_PACKET` — it has priority over new packets, external events and
rollover — and the flag is cleared; but if `capture_enable` is cleared
first, a capture-stop record is written instead and the
pending event is discarded (see the counterexample). -/
theorem C8_pending_event_written_next (i : AIn) (s : AState)
    (hf : s.fsm = AFsm.awaitPacket) (hpend : s.pending_trigger_event = true)
    (hen : i.capture_enable = true) :
    (analyzerStep i s).2 =
      [MemOp.writeEvent USBAnalyzerEvent_TRIGGER_FIRED s.current_time] ∧
    (analyzerStep i s).1.pending_trigger_event = false := by
  constructor <;> simp [analyzerStep, hf, step_await_packet, hpend, hen]

/-- C8 witness: the theorem applied with a packet simultaneously arriving;
the trigger-fired event still wins. -/
theorem C8_witness :
    (analyzerStep { inQuiet with capture_enable := true, rx_active := true, rx_valid := true }
        { aReset with fsm := AFsm.awaitPacket, pending_trigger_event := true,
                      current_time := 9 }).2 =
      [MemOp.writeEvent USBAnalyzerEvent_TRIGGER_FIRED
        ({ aReset with fsm := AFsm.awaitPacket, pending_trigger_event := true,
                       current_time := 9 } : AState).current_time] ∧
    (analyzerStep { inQuiet with capture_enable := true, rx_active := true, rx_valid := true }
        { aReset with fsm := AFsm.awaitPacket, pending_trigger_event := true,
                      current_time := 9 }).1.pending_trigger_event = false :=
  C8_pending_event_written_next _ _ rfl rfl rfl

/-- C8 counterexample: clearing `capture_enable` while the trigger event is
pending writes a capture-stop record (not the trigger-fired record) as the
next record, and the following cycle in `AWAIT_START` silently discards the
pending trigger event, so the trigger-fired record is never written. -/
theorem C8_capture_stop_preempts_trigger_event :
    (analyzerStep inQuiet
        { aReset with fsm := AFsm.awaitPacket, pending_trigger_event := true,
                      current_time := 7 }).2 =
      [MemOp.writeEvent USBAnalyzerEvent_CAPTURE_STOP_NORMAL 7] ∧
    (analyzerStep inQuiet
        { aReset with fsm := AFsm.awaitPacket, pending_trigger_event := true,
                      current_time := 7 }).1.fsm = AFsm.awaitStart ∧
    (analyzerStep inQuiet
        (analyzerStep inQuiet
          { aReset with fsm := AFsm.awaitPacket, pending_trigger_event := true,
                        current_time := 7 }).1).1.pending_trigger_event = false ∧
    (analyzerStep inQuiet
        (analyzerStep inQuiet
          { aReset with fsm := AFsm.awaitPacket, pending_trigger_event := true,
                        current_time := 7 }).1).2 = [] := by
  decide

/-- C9 (amended): the arm strobe, the disarm strobe, `enable` clear or
`armed` clear force `sequence_stage` to 0 when the capture FSM is in
`AWAIT_PACKET` (and `AWAIT_START` holds it at 0); during `CAPTURE_PACKET`
the strobes do not affect `sequence_stage` (see the counterexample).
Clearing `enable` through SET_TRIGGER_CONTROL, and DISARM_TRIGGER, clear
`armed` (the former also pulses the disarm strobe). -/
theorem C9_sequence_reset_semantics (i : AIn) (s : AState) (t : TriggerConfig)
    (p : List Nat)
    (hcond : (i.disarm_strobe || !i.trig_enable || !i.trig_armed || i.arm_strobe) = true)
    (hp : TRIGGER_CONTROL_PAYLOAD_LEN ≤ p.length) (hp0 : p.getD 0 0 % 2 = 0) :
    (s.fsm = AFsm.awaitPacket → (analyzerStep i s).1.seq_expected_stage = 0) ∧
    (s.fsm = AFsm.awaitStart → (analyzerStep i s).1.seq_expected_stage = 0) ∧
    (disarm_trigger t).armed = false ∧
    (set_trigger_control t p).regs.armed = false ∧
    (set_trigger_control t p).disarm_pulse = true := by
  have hmin : TRIGGER_CONTROL_PAYLOAD_LEN ≤ min p.length TRIGGER_STAGE_PAYLOAD_LEN := by
    simp [TRIGGER_CONTROL_PAYLOAD_LEN, TRIGGER_STAGE_PAYLOAD_LEN] at hp ⊢
    omega
  have hflag : ¬ (p[0]?.getD 0 % 256 % 2 = 1) := by
    rw [show p[0]?.getD 0 = p.getD 0 0 from by simp [List.getD],
      Nat.mod_mod_of_dvd _ (by norm_num : (2 : Nat) ∣ 256)]
    omega
  refine ⟨?_, ?_, rfl, ?_, ?_⟩
  · intro hf
    simp only [analyzerStep, hf, step_await_packet, hcond, if_true]
    repeat' split
    all_goals rfl
  · intro hf
    simp only [analyzerStep, hf, step_await_start]
    repeat' split
    all_goals rfl
  · simp [set_trigger_control, hmin, hflag]
  · simp [set_trigger_control, hmin, hflag]

/-- C9 witness: the theorem applied to a disarm strobe in `AWAIT_PACKET`
and a SET_TRIGGER_CONTROL payload with `enable = 0`. -/
theorem C9_witness :
    ((({ aReset with fsm := AFsm.awaitPacket, seq_expected_stage := 3 } : AState).fsm =
        AFsm.awaitPacket →
      (analyzerStep { inQuiet with disarm_strobe := true }
        { aReset with fsm := AFsm.awaitPacket,
                      seq_expected_stage := 3 }).1.seq_expected_stage = 0) ∧
    (({ aReset with fsm := AFsm.awaitPacket, seq_expected_stage := 3 } : AState).fsm =
        AFsm.awaitStart →
      (analyzerStep { inQuiet with disarm_strobe := true }
        { aReset with fsm := AFsm.awaitPacket,
                      seq_expected_stage := 3 }).1.seq_expected_stage = 0) ∧
    (disarm_trigger triggerConfigReset).armed = false ∧
    (set_trigger_control triggerConfigReset [0, 5]).regs.armed = false ∧
    (set_trigger_control triggerConfigReset [0, 5]).disarm_pulse = true) :=
  C9_sequence_reset_semantics _ _ triggerConfigReset [0, 5] (by decide) (by decide) (by decide)

/-- C9 counterexample: in `CAPTURE_PACKET` a disarm-strobe pulse leaves
`sequence_stage` untouched (the claim says it is zeroed immediately in
every capture FSM state). -/
theorem C9_capture_packet_ignores_disarm :
    (analyzerStep
        { inQuiet with disarm_strobe := true, rx_active := true,
                       trig_enable := true, trig_armed := true }
        { aReset with fsm := AFsm.capturePacket,
                      seq_expected_stage := 1 }).1.seq_expected_stage = 1 := by
  decide

/-- C3: at end of packet (`rx_active` deasserting in `CAPTURE_PACKET`), if
`full_match` holds and `active_stage + 1 = stage_count` then
`sequence_stage` is zeroed, `trigger_fire_strobe` pulses,
`pending_trigger_event` is set and `trigger_out` toggles exactly when
`output_enable` is set; if `full_match` holds with
`active_stage + 1 < stage_count` then `sequence_stage` increments by
exactly one (and nothing fires); otherwise `sequence_stage` is unchanged.
The 4-bit registers are assumed in range (`hseq`, `hsc`). -/
theorem C3_end_of_packet_evaluation (i : AIn) (s : AState)
    (hf : s.fsm = AFsm.capturePacket) (hrx : i.rx_active = false)
    (hseq : s.seq_expected_stage < 16) (hsc : i.trig_stage_count < 16) :
    (full_match i s = true → active_stage_index s + 1 = i.trig_stage_count →
      (analyzerStep i s).1.seq_expected_stage = 0 ∧
      (analyzerStep i s).1.trigger_fire_strobe = true ∧
      (analyzerStep i s).1.pending_trigger_event = true ∧
      (analyzerStep i s).1.trigger_toggle_out =
        (if i.trig_output_enable then !s.trigger_toggle_out else s.trigger_toggle_out)) ∧
    (full_match i s = true → active_stage_index s + 1 < i.trig_stage_count →
      (analyzerStep i s).1.seq_expected_stage = s.seq_expected_stage + 1 ∧
      (analyzerStep i s).1.trigger_fire_strobe = false ∧
      (analyzerStep i s).1.pending_trigger_event = s.pending_trigger_event ∧
      (analyzerStep i s).1.trigger_toggle_out = s.trigger_toggle_out) ∧
    (full_match i s = false →
      (analyzerStep i s).1.seq_expected_stage = s.seq_expected_stage ∧
      (analyzerStep i s).1.trigger_fire_strobe = false ∧
      (analyzerStep i s).1.pending_trigger_event = s.pending_trigger_event ∧
      (analyzerStep i s).1.trigger_toggle_out = s.trigger_toggle_out) := by
  have hseq8 : full_match i s = true → s.seq_expected_stage < 8 := by
    intro hm
    have hv : active_stage_valid i s = true := by
      have := hm
      unfold full_match at this
      exact (Bool.and_eq_true_iff.mp
        (Bool.and_eq_true_iff.mp
          (Bool.and_eq_true_iff.mp (Bool.and_eq_true_iff.mp this).1).1).1).1
    unfold active_stage_valid at hv
    have h8 := of_decide_eq_true (Bool.and_eq_true_iff.mp hv).2
    simp only [TRIGGER_MAX_STAGES] at h8
    omega
  refine ⟨?_, ?_, ?_⟩
  · intro hm heq
    have h8 := hseq8 hm
    have hidx : active_stage_index s = s.seq_expected_stage := by
      unfold active_stage_index
      omega
    have hfire : i.trig_stage_count % 16 ≤ s.seq_expected_stage % 16 + 1 := by
      rw [hidx] at heq
      omega
    simp only [analyzerStep, hf, step_capture_packet]
    simp only [hrx, hm, Bool.and_false, Bool.false_eq_true, if_false, Bool.not_false,
      if_true, ite_true, ite_false, if_pos hfire]
    split
    next hout => simp [hout]
    next hout => simp at hout; simp [hout]
  · intro hm hlt
    have h8 := hseq8 hm
    have hidx : active_stage_index s = s.seq_expected_stage := by
      unfold active_stage_index
      omega
    have hfire : ¬ (i.trig_stage_count % 16 ≤ s.seq_expected_stage % 16 + 1) := by
      rw [hidx] at hlt
      omega
    have hmod : (s.seq_expected_stage + 1) % 16 = s.seq_expected_stage + 1 := by omega
    simp only [analyzerStep, hf, step_capture_packet]
    simp only [hrx, hm, Bool.and_false, Bool.false_eq_true, if_false, Bool.not_false,
      if_true, ite_true, ite_false, if_neg hfire]
    simp [hmod]
  · intro hm
    simp only [analyzerStep, hf, step_capture_packet]
    simp only [hrx, hm, Bool.and_false, Bool.false_eq_true, if_false, Bool.not_false,
      if_true, ite_true, ite_false]
    simp

/-- C3 witness: the theorem applied to a firing single-stage end of packet
(stage 0, offset 0, length 1, one matching byte captured). -/
theorem C3_witness :
    (full_match c3_in c3_st = true → active_stage_index c3_st + 1 = c3_in.trig_stage_count →
      (analyzerStep c3_in c3_st).1.seq_expected_stage = 0 ∧
      (analyzerStep c3_in c3_st).1.trigger_fire_strobe = true ∧
      (analyzerStep c3_in c3_st).1.pending_trigger_event = true ∧
      (analyzerStep c3_in c3_st).1.trigger_toggle_out =
        (if c3_in.trig_output_enable then !c3_st.trigger_toggle_out
          else c3_st.trigger_toggle_out)) ∧
    (full_match c3_in c3_st = true → active_stage_index c3_st + 1 < c3_in.trig_stage_count →
      (analyzerStep c3_in c3_st).1.seq_expected_stage = c3_st.seq_expected_stage + 1 ∧
      (analyzerStep c3_in c3_st).1.trigger_fire_strobe = false ∧
      (analyzerStep c3_in c3_st).1.pending_trigger_event = c3_st.pending_trigger_event ∧
      (analyzerStep c3_in c3_st).1.trigger_toggle_out = c3_st.trigger_toggle_out) ∧
    (full_match c3_in c3_st = false →
      (analyzerStep c3_in c3_st).1.seq_expected_stage = c3_st.seq_expected_stage ∧
      (analyzerStep c3_in c3_st).1.trigger_fire_strobe = false ∧
      (analyzerStep c3_in c3_st).1.pending_trigger_event = c3_st.pending_trigger_event ∧
      (analyzerStep c3_in c3_st).1.trigger_toggle_out = c3_st.trigger_toggle_out) :=
  C3_end_of_packet_evaluation c3_in c3_st rfl rfl (by decide) (by decide)

/-- `stage_write_byte` never touches `stage_count`. -/
theorem stage_write_byte_stage_count (t : TriggerConfig) (stage idx b : Nat) :
    (stage_write_byte t stage idx b).stage_count = t.stage_count := by
  unfold stage_write_byte
  repeat' split
  all_goals rfl

/-- `apply_stage_bytes` never touches `stage_count`. -/
theorem apply_stage_bytes_stage_count (stage : Nat) (p : List Nat) :
    ∀ (t : TriggerConfig) (idx : Nat),
      (apply_stage_bytes stage t idx p).stage_count = t.stage_count := by
  induction p with
  | nil => intro t idx; rfl
  | cons b rest ih =>
    intro t idx
    rw [apply_stage_bytes, ih, stage_write_byte_stage_count]

/-- SET_TRIGGER_CONTROL keeps `stage_count ≤ TRIGGER_MAX_STAGES` (the
commit clamps). -/
theorem set_trigger_control_stage_count_le (t : TriggerConfig) (p : List Nat)
    (h : t.stage_count ≤ TRIGGER_MAX_STAGES) :
    (set_trigger_control t p).regs.stage_count ≤ TRIGGER_MAX_STAGES := by
  simp only [set_trigger_control]
  repeat' split
  all_goals simp_all

/-- One analyzer cycle keeps `seq_expected_stage ≤ TRIGGER_MAX_STAGES`,
provided the `stage_count` register it compares against is in range. -/
theorem analyzerStep_seq_le (i : AIn) (s : AState)
    (hseq : s.seq_expected_stage ≤ TRIGGER_MAX_STAGES)
    (hsc : i.trig_stage_count ≤ TRIGGER_MAX_STAGES) :
    (analyzerStep i s).1.seq_expected_stage ≤ TRIGGER_MAX_STAGES := by
  simp only [TRIGGER_MAX_STAGES] at hseq hsc ⊢
  cases hfsm : s.fsm
  all_goals simp only [analyzerStep, hfsm, step_await_start, step_await_packet,
    step_capture_packet, step_overrun]
  all_goals repeat' split
  all_goals try simp
  all_goals omega

/-- C7 (amended): in every reachable state of the combined system,
`sequence_stage ≤ MAX_STAGES` and `stage_count ≤ MAX_STAGES`.  The claimed
`sequence_stage ≤ stage_count` part does not hold: a SET_TRIGGER_CONTROL
that lowers `stage_count` below a partially-matched `sequence_stage` leaves
`sequence_stage > stage_count` (see the counterexample); matching is then
inert until a disarm/arm/disable resets the sequence. -/
theorem C7_stage_bounds_invariant (s : SysState) (h : SysReachable s) :
    s.ana.seq_expected_stage ≤ TRIGGER_MAX_STAGES ∧
    s.cfg.stage_count ≤ TRIGGER_MAX_STAGES := by
  induction h with
  | init =>
    constructor <;> simp [sysReset, aReset, triggerConfigReset, TRIGGER_MAX_STAGES]
  | @step s' a h ih =>
    obtain ⟨h1, h2⟩ := ih
    cases a with
    | vendorControl p e =>
      exact ⟨analyzerStep_seq_le _ _ h1 h2, set_trigger_control_stage_count_le _ _ h2⟩
    | vendorStage stageRaw p e =>
      refine ⟨analyzerStep_seq_le _ _ h1 h2, ?_⟩
      simp only [sysStep, set_trigger_stage]
      split
      · rw [apply_stage_bytes_stage_count]
        exact h2
      · exact h2
    | armAction e => exact ⟨analyzerStep_seq_le _ _ h1 h2, h2⟩
    | disarmAction e => exact ⟨analyzerStep_seq_le _ _ h1 h2, h2⟩
    | plainCycle e => exact ⟨analyzerStep_seq_le _ _ h1 h2, h2⟩

/-- C7 witness: the amended invariant applied to the reachable reset
state. -/
theorem C7_witness :
    sysReset.ana.seq_expected_stage ≤ TRIGGER_MAX_STAGES ∧
    sysReset.cfg.stage_count ≤ TRIGGER_MAX_STAGES :=
  C7_stage_bounds_invariant sysReset SysReachable.init

/-- `sys_run` preserves reachability. -/
theorem sysReachable_run (acts : List SysAction) :
    ∀ s, SysReachable s → SysReachable (sys_run s acts) := by
  induction acts with
  | nil => intro s h; exact h
  | cons a rest ih =>
    intro s h
    simpa [sys_run, List.foldl_cons] using ih (sysStep s a) (SysReachable.step a h)

/-- C7 counterexample: the reachable state after `c7_trace` — a two-stage
sequence with stage 0 matched, then SET_TRIGGER_CONTROL lowering
`stage_count` to 0 — has `sequence_stage = 1 > stage_count = 0`, violating
`sequence_stage ≤ stage_count` as claimed. -/
theorem C7_lowered_stage_count_violates :
    SysReachable (sys_run sysReset c7_trace) ∧
    (sys_run sysReset c7_trace).ana.seq_expected_stage = 1 ∧
    (sys_run sysReset c7_trace).cfg.stage_count = 0 :=
  ⟨sysReachable_run c7_trace sysReset SysReachable.init, by decide, by decide⟩

/-- C2: the claim requires a stage programmed via the vendor protocol to
drive the matcher.  In the top-level wiring the vendor handler writes the
`patterns_flat`/`masks_flat` signal arrays of `USBAnalyzerTriggerConfig`,
but the analyzer compares captured bytes against its internal
`pattern_mem`/`mask_mem` memories, whose write ports
(`pattern_write_en`, …) have no driver in `USBAnalyzerTriggerConfig` (the
attribute does not even exist there).  After programming stage 0 with
pattern `0xAA`, mask `0xFF`, offset 0, length 1 and capturing the packet
`[0xAA]`, the pattern byte sits in the handler's register while the match
memory still holds its reset value, and the trigger does not fire; had the
pattern reached the match memory (last conjunct), the same run would fire
exactly as the claim demands. -/
theorem C2_vendor_pattern_not_wired :
    (sys_run sysReset c2_trace).cfg.patterns_flat 0 = 0xAA ∧
    (sys_run sysReset c2_trace).ana.pattern_mem 0 = 0 ∧
    (sys_run sysReset c2_trace).ana.trigger_fire_count = 0 ∧
    (sys_run sysReset c2_trace).ana.trigger_toggle_out = false ∧
    (sys_run
        { cfg := triggerConfigReset,
          ana := { aReset with pattern_mem := upd aReset.pattern_mem 0 0xAA } }
        c2_trace).ana.trigger_fire_count = 1 := by
  refine ⟨by decide, by decide, by decide, by decide, by decide⟩

/-- Updating the same key twice keeps the last value. -/
theorem upd_upd_same (f : Nat → Nat) (k v w : Nat) : upd (upd f k v) k w = upd f k w := by
  funext i
  simp only [upd]
  split <;> rfl

/-- `apply_stage_bytes` splits over list append. -/
theorem apply_stage_bytes_append (stage : Nat) (xs : List Nat) :
    ∀ (ys : List Nat) (t : TriggerConfig) (idx : Nat),
      apply_stage_bytes stage t idx (xs ++ ys) =
        apply_stage_bytes stage (apply_stage_bytes stage t idx xs) (idx + xs.length) ys := by
  induction xs with
  | nil => intro ys t idx; simp [apply_stage_bytes]
  | cons b rest ih =>
    intro ys t idx
    simp only [List.cons_append, apply_stage_bytes, List.length_cons]
    rw [List.append_eq, ih]
    congr 1
    omega

/-- A stage byte with `4 ≤ rx_count < 36` writes exactly one pattern
byte. -/
theorem stage_write_byte_pattern (t : TriggerConfig) (stage idx b : Nat)
    (h4 : 4 ≤ idx) (h36 : idx < 36) :
    stage_write_byte t stage idx b =
      { t with patterns_flat := (upd t.patterns_flat
          (stage * TRIGGER_MAX_PATTERN_BYTES + (idx - 4)) (b % 256)) } := by
  simp only [stage_write_byte, TRIGGER_MAX_PATTERN_BYTES, TRIGGER_STAGE_PAYLOAD_LEN]
  rw [if_neg (by omega), if_neg (by omega), if_neg (by omega), if_neg (by omega),
    if_pos (by omega)]

/-- A stage byte with `36 ≤ rx_count < 68` writes exactly one mask byte. -/
theorem stage_write_byte_mask (t : TriggerConfig) (stage idx b : Nat)
    (h36 : 36 ≤ idx) (h68 : idx < 68) :
    stage_write_byte t stage idx b =
      { t with masks_flat := (upd t.masks_flat
          (stage * TRIGGER_MAX_PATTERN_BYTES + (idx - 36)) (b % 256)) } := by
  simp only [stage_write_byte, TRIGGER_MAX_PATTERN_BYTES, TRIGGER_STAGE_PAYLOAD_LEN]
  rw [if_neg (by omega), if_neg (by omega), if_neg (by omega), if_neg (by omega),
    if_neg (by omega), if_pos (by omega)]

/-- A run of payload bytes inside the pattern region is a consecutive
write into `patterns_flat`. -/
theorem apply_stage_bytes_pattern_region (stage : Nat) (bs : List Nat) :
    ∀ (t : TriggerConfig) (idx : Nat), 4 ≤ idx → idx + bs.length ≤ 36 →
      apply_stage_bytes stage t idx bs =
        { t with patterns_flat := (write_seq t.patterns_flat
            (stage * TRIGGER_MAX_PATTERN_BYTES + (idx - 4)) bs) } := by
  induction bs with
  | nil => intro t idx _ _; rfl
  | cons b rest ih =>
    intro t idx h4 h36
    simp only [List.length_cons] at h36
    rw [apply_stage_bytes, stage_write_byte_pattern t stage idx b h4 (by omega),
      ih _ (idx + 1) (by omega) (by omega)]
    have he : idx + 1 - 4 = (idx - 4) + 1 := by omega
    rw [he]
    rfl

/-- A run of payload bytes inside the mask region is a consecutive write
into `masks_flat`. -/
theorem apply_stage_bytes_mask_region (stage : Nat) (bs : List Nat) :
    ∀ (t : TriggerConfig) (idx : Nat), 36 ≤ idx → idx + bs.length ≤ 68 →
      apply_stage_bytes stage t idx bs =
        { t with masks_flat := (write_seq t.masks_flat
            (stage * TRIGGER_MAX_PATTERN_BYTES + (idx - 36)) bs) } := by
  induction bs with
  | nil => intro t idx _ _; rfl
  | cons b rest ih =>
    intro t idx h36 h68
    simp only [List.length_cons] at h68
    rw [apply_stage_bytes, stage_write_byte_mask t stage idx b h36 (by omega),
      ih _ (idx + 1) (by omega) (by omega)]
    have he : idx + 1 - 36 = (idx - 36) + 1 := by omega
    rw [he]
    rfl

/-- Lookup of a consecutive write. -/
theorem write_seq_apply (bs : List Nat) :
    ∀ (f : Nat → Nat) (k j : Nat),
      write_seq f k bs j =
        if k ≤ j ∧ j < k + bs.length then bs.getD (j - k) 0 % 256 else f j := by
  induction bs with
  | nil =>
    intro f k j
    simp only [write_seq, List.length_nil, Nat.add_zero]
    rw [if_neg (by omega)]
  | cons b rest ih =>
    intro f k j
    simp only [write_seq, List.length_cons]
    rw [ih]
    by_cases hjk : j = k
    · subst hjk
      rw [if_neg (by omega), if_pos (by omega)]
      simp [upd]
    · by_cases hin : k + 1 ≤ j ∧ j < k + 1 + rest.length
      · rw [if_pos hin, if_pos (by omega)]
        have he : j - k = (j - (k + 1)) + 1 := by omega
        rw [he]
        rfl
      · rw [if_neg hin, if_neg (by omega)]
        simp [upd, hjk]

/-- Reading back 32 consecutively written bytes returns them verbatim. -/
theorem map_write_seq_eq (f : Nat → Nat) (k : Nat) (bs : List Nat)
    (hlen : bs.length = TRIGGER_MAX_PATTERN_BYTES) (hb : ∀ b ∈ bs, b < 256) :
    (List.range TRIGGER_MAX_PATTERN_BYTES).map (fun i => write_seq f k bs (k + i) % 256) = bs := by
  simp only [TRIGGER_MAX_PATTERN_BYTES] at hlen ⊢
  apply List.ext_getElem
  · simp [hlen]
  · intro n h1 h2
    simp only [List.getElem_map, List.getElem_range]
    rw [write_seq_apply]
    rw [if_pos (by omega)]
    have hn : k + n - k = n := by omega
    rw [hn, List.getD_eq_getElem bs 0 (by omega)]
    have hlt : bs[n] < 256 := hb _ (List.getElem_mem h2)
    omega

/-- Updating a key then reading it returns the written value. -/
theorem upd_same (f : Nat → Nat) (k v : Nat) : upd f k v k = v := by simp [upd]

/-- The first 4 payload bytes of SET_TRIGGER_STAGE commit the 16-bit offset
(low byte then high byte), the clamped length, and skip the reserved
byte. -/
theorem apply_stage_bytes_prefix4 (t : TriggerConfig) (stage o l : Nat)
    (ho : o < 2 ^ 16) (hl : l < 256) :
    apply_stage_bytes stage t 0 [o % 256, o / 256, l, 0] =
      { t with
        stage_offsets := upd t.stage_offsets stage o,
        stage_lengths := (upd t.stage_lengths stage (min l 32)) } := by
  have h1 : set_high_byte (set_low_byte (t.stage_offsets stage) (o % 256)) (o / 256) = o := by
    unfold set_low_byte set_high_byte
    omega
  have h2 : (if TRIGGER_MAX_PATTERN_BYTES < l % 256 then TRIGGER_MAX_PATTERN_BYTES else l % 256) =
      min l 32 := by
    simp only [TRIGGER_MAX_PATTERN_BYTES, Nat.min_def]
    split <;> split <;> omega
  simp only [apply_stage_bytes, stage_write_byte]
  norm_num [upd_upd_same, upd_same, h1, h2]

/-- C10: for every valid stage index, a completed SET_TRIGGER_STAGE with
offset `o`, length `l`, pattern bytes `P` and mask bytes `M`, followed by
GET_TRIGGER_STAGE for that stage, is accepted (no STALL) and returns the
68-byte layout offset-low, offset-high, length clamped to
`min l MAX_PATTERN`, reserved-zero, the 32 pattern bytes and the 32 mask
bytes exactly as written. -/
theorem C10_stage_roundtrip (t : TriggerConfig) (s o l : Nat) (P M : List Nat)
    (hs : s < TRIGGER_MAX_STAGES) (ho : o < 2 ^ 16) (hl : l < 256)
    (hP : P.length = TRIGGER_MAX_PATTERN_BYTES) (hM : M.length = TRIGGER_MAX_PATTERN_BYTES)
    (hPb : ∀ b ∈ P, b < 256) (hMb : ∀ b ∈ M, b < 256) :
    (set_trigger_stage t s ([o % 256, o / 256, l, 0] ++ P ++ M)).stalled = false ∧
    get_trigger_stage (set_trigger_stage t s ([o % 256, o / 256, l, 0] ++ P ++ M)).regs s =
      some ([o % 256, o / 256, min l 32, 0] ++ P ++ M) := by
  simp only [TRIGGER_MAX_STAGES] at hs
  simp only [TRIGGER_MAX_PATTERN_BYTES] at hP hM
  have hs256 : s % 256 = s := by omega
  have hs8 : s % 8 = s := by omega
  have hlen : ([o % 256, o / 256, l, 0] ++ P ++ M).length = 68 := by
    simp [hP, hM]
  have hform : apply_stage_bytes s t 0 ([o % 256, o / 256, l, 0] ++ P ++ M) =
      { t with
        stage_offsets := upd t.stage_offsets s o,
        stage_lengths := (upd t.stage_lengths s (min l 32)),
        patterns_flat := (write_seq t.patterns_flat (s * TRIGGER_MAX_PATTERN_BYTES) P),
        masks_flat := (write_seq t.masks_flat (s * TRIGGER_MAX_PATTERN_BYTES) M) } := by
    rw [List.append_assoc]
    rw [apply_stage_bytes_append s [o % 256, o / 256, l, 0] (P ++ M) t 0]
    rw [apply_stage_bytes_prefix4 t s o l ho hl]
    have h04 : (0 : Nat) + ([o % 256, o / 256, l, 0] : List Nat).length = 4 := by simp
    rw [h04]
    rw [apply_stage_bytes_append s P M _ 4]
    rw [apply_stage_bytes_pattern_region s P _ 4 (by omega) (by omega)]
    have h436 : (4 : Nat) + P.length = 36 := by omega
    rw [h436]
    rw [apply_stage_bytes_mask_region s M _ 36 (by omega) (by omega)]
    norm_num
  constructor
  · simp [set_trigger_stage, hs256, hlen, TRIGGER_MAX_STAGES, TRIGGER_STAGE_PAYLOAD_LEN]
    exact ⟨hs, by omega⟩
  · simp only [set_trigger_stage, hs256, hs8, TRIGGER_MAX_STAGES, decide_eq_true hs, if_true]
    rw [hform]
    simp only [get_trigger_stage, hs256, hs8, TRIGGER_MAX_STAGES, decide_eq_true hs, if_true]
    rw [upd_same, upd_same]
    rw [map_write_seq_eq t.patterns_flat (s * TRIGGER_MAX_PATTERN_BYTES) P
        (by simpa [TRIGGER_MAX_PATTERN_BYTES] using hP) hPb]
    rw [map_write_seq_eq t.masks_flat (s * TRIGGER_MAX_PATTERN_BYTES) M
        (by simpa [TRIGGER_MAX_PATTERN_BYTES] using hM) hMb]
    have e2 : o / 256 % 256 = o / 256 := by omega
    have e3 : min l 32 % 256 = min l 32 := by
      have : min l 32 ≤ 32 := Nat.min_le_right l 32
      omega
    rw [e2, e3, if_pos hs]

/-- C10 witness: the theorem applied to stage 2, offset `0x1234`, length 40
(clamped to 32), pattern bytes `0xAB`, mask bytes `0xCD`. -/
theorem C10_witness :
    (set_trigger_stage triggerConfigReset 2
        ([0x1234 % 256, 0x1234 / 256, 40, 0] ++ List.replicate 32 0xAB ++
          List.replicate 32 0xCD)).stalled = false ∧
    get_trigger_stage
        (set_trigger_stage triggerConfigReset 2
          ([0x1234 % 256, 0x1234 / 256, 40, 0] ++ List.replicate 32 0xAB ++
            List.replicate 32 0xCD)).regs 2 =
      some ([0x1234 % 256, 0x1234 / 256, min 40 32, 0] ++ List.replicate 32 0xAB ++
        List.replicate 32 0xCD) :=
  C10_stage_roundtrip triggerConfigReset 2 0x1234 40 (List.replicate 32 0xAB)
    (List.replicate 32 0xCD) (by decide) (by decide) (by decide) (by decide) (by decide)
    (by decide) (by decide)

/-- Closed form of `evens_from`. -/
theorem evens_from_eq (n : Nat) : ∀ a, evens_from a n = if a % 2 = 0 then (n + 1) / 2 else n / 2 := by
  induction n with
  | zero => intro a; simp [evens_from]
  | succ m ih =>
    intro a
    rw [evens_from, ih (a + 1)]
    rcases Nat.mod_two_eq_zero_or_one a with h0 | h0
    · have h1 : ¬ ((a + 1) % 2 = 0) := by omega
      rw [if_pos h0, if_neg h1]
      omega
    · have h1 : (a + 1) % 2 = 0 := by omega
      have h2 : ¬ (a % 2 = 0) := by omega
      rw [if_neg h2, if_pos h1]
      omega


/-- `evens_from` only depends on the parity of the start address. -/
theorem evens_from_congr (n : Nat) (a b : Nat) (h : a % 2 = b % 2) :
    evens_from a n = evens_from b n := by
  rw [evens_from_eq, evens_from_eq, h]


/-- Serving a run of `writeByte` operations writes the bytes at
consecutive (ring-wrapped) byte addresses, counts one pending word per even
address, and touches nothing else. -/
theorem framer_run_bytes (bs : List Nat) :
    ∀ fs : FramerState, fs.write_byte_addr < MEM_SIZE_BYTES → bs.length ≤ MEM_SIZE_BYTES →
      fs.fifo_words_pending < 2 ^ 11 →
      ((framer_run fs (bs.map MemOp.writeByte)).write_byte_addr =
          (fs.write_byte_addr + bs.length) % MEM_SIZE_BYTES ∧
        (framer_run fs (bs.map MemOp.writeByte)).header_word_addr = fs.header_word_addr ∧
        (framer_run fs (bs.map MemOp.writeByte)).commit_count = fs.commit_count ∧
        (framer_run fs (bs.map MemOp.writeByte)).fifo_word_count = fs.fifo_word_count ∧
        (framer_run fs (bs.map MemOp.writeByte)).fifo_words_pending =
          (fs.fifo_words_pending + evens_from fs.write_byte_addr bs.length) % 2 ^ 11) ∧
      (∀ j, j < bs.length →
        (framer_run fs (bs.map MemOp.writeByte)).mem ((fs.write_byte_addr + j) % MEM_SIZE_BYTES) =
          bs.getD j 0 % 256) ∧
      (∀ a, (∀ j, j < bs.length → a ≠ (fs.write_byte_addr + j) % MEM_SIZE_BYTES) →
        (framer_run fs (bs.map MemOp.writeByte)).mem a = fs.mem a) := by
  induction bs with
  | nil =>
    intro fs h1 _ h3
    simp only [MEM_SIZE_BYTES] at h1
    refine ⟨⟨?_, rfl, rfl, rfl, ?_⟩, ?_, ?_⟩
    · simp only [List.map_nil, framer_run, List.length_nil, Nat.add_zero, MEM_SIZE_BYTES]
      omega
    · simp only [List.map_nil, framer_run, List.length_nil, evens_from]
      omega
    · intro j hj
      simp at hj
    · intro a _
      rfl
  | cons b rest ih =>
    intro fs h1 h2 h3
    simp only [MEM_SIZE_BYTES] at h1 h2
    simp only [List.length_cons] at h2 ⊢
    simp only [List.map_cons, framer_run]
    have e1 : (framer_step fs (MemOp.writeByte b)).write_byte_addr =
        (fs.write_byte_addr + 1) % MEM_SIZE_BYTES := rfl
    have e2 : (framer_step fs (MemOp.writeByte b)).header_word_addr = fs.header_word_addr := rfl
    have e3 : (framer_step fs (MemOp.writeByte b)).commit_count = fs.commit_count := rfl
    have e4 : (framer_step fs (MemOp.writeByte b)).fifo_word_count = fs.fifo_word_count := rfl
    have e5 : (framer_step fs (MemOp.writeByte b)).fifo_words_pending =
        (fs.fifo_words_pending + (1 - fs.write_byte_addr % 2)) % 2 ^ 11 := rfl
    have e6 : (framer_step fs (MemOp.writeByte b)).mem =
        upd fs.mem (fs.write_byte_addr % MEM_SIZE_BYTES) (b % 256) := rfl
    obtain ⟨⟨ha1, ha2, ha3, ha4, ha5⟩, hmem, hpres⟩ :=
      ih (framer_step fs (MemOp.writeByte b))
        (by rw [e1]; simp only [MEM_SIZE_BYTES]; omega)
        (by simp only [MEM_SIZE_BYTES]; omega)
        (by rw [e5]; omega)
    refine ⟨⟨?_, ?_, ?_, ?_, ?_⟩, ?_, ?_⟩
    · rw [ha1, e1]
      simp only [MEM_SIZE_BYTES]
      omega
    · rw [ha2, e2]
    · rw [ha3, e3]
    · rw [ha4, e4]
    · rw [ha5, e5, e1,
        evens_from_congr rest.length ((fs.write_byte_addr + 1) % MEM_SIZE_BYTES)
          (fs.write_byte_addr + 1) (by simp only [MEM_SIZE_BYTES]; omega),
        evens_from]
      omega
    · intro j hj
      match j with
      | 0 =>
        rw [hpres, e6]
        · simp only [Nat.add_zero]
          rw [Nat.mod_eq_of_lt (show fs.write_byte_addr < MEM_SIZE_BYTES from by
            simp only [MEM_SIZE_BYTES]; omega)]
          simp [upd]
        · intro k hk
          rw [e1]
          simp only [Nat.add_zero, MEM_SIZE_BYTES]
          rw [Nat.mod_eq_of_lt (by omega : fs.write_byte_addr < 8192)]
          omega
      | j' + 1 =>
        have hstep := hmem j' (by omega)
        rw [e1] at hstep
        rw [show ((fs.write_byte_addr + 1) % MEM_SIZE_BYTES + j') % MEM_SIZE_BYTES =
            (fs.write_byte_addr + (j' + 1)) % MEM_SIZE_BYTES from by
          simp only [MEM_SIZE_BYTES]; omega] at hstep
        rw [hstep]
        rfl
    · intro a hav
      rw [hpres, e6]
      · simp only [upd]
        rw [if_neg]
        have h0 := hav 0 (by omega)
        simp only [Nat.add_zero] at h0
        rw [show fs.write_byte_addr % MEM_SIZE_BYTES = fs.write_byte_addr from
          Nat.mod_eq_of_lt (by simp only [MEM_SIZE_BYTES]; omega)]
        rw [Nat.mod_eq_of_lt (show fs.write_byte_addr < MEM_SIZE_BYTES from by
          simp only [MEM_SIZE_BYTES]; omega)] at h0
        exact h0
      · intro k hk
        rw [e1]
        have hk1 := hav (k + 1) (by omega)
        rw [show ((fs.write_byte_addr + 1) % MEM_SIZE_BYTES + k) % MEM_SIZE_BYTES =
            (fs.write_byte_addr + (k + 1)) % MEM_SIZE_BYTES from by
          simp only [MEM_SIZE_BYTES]; omega]
        exact hk1


/-- `framer_run` splits over list append. -/
theorem framer_run_append (xs : List MemOp) :
    ∀ (ys : List MemOp) (fs : FramerState),
      framer_run fs (xs ++ ys) = framer_run (framer_run fs xs) ys := by
  induction xs with
  | nil => intro ys fs; rfl
  | cons x rest ih =>
    intro ys fs
    simp only [List.cons_append, framer_run]
    rw [List.append_eq, ih]


/-- Reading the high-lane byte of a word write. -/
theorem write_mem_word_hi (m : Nat → Nat) (w v a : Nat) (h : a = 2 * (w % 4096)) :
    write_mem_word m w v a = v / 256 % 256 := by
  subst h
  simp only [write_mem_word, upd]
  rw [if_neg (by omega)]
  simp


/-- Reading the low-lane byte of a word write. -/
theorem write_mem_word_lo (m : Nat → Nat) (w v a : Nat) (h : a = 2 * (w % 4096) + 1) :
    write_mem_word m w v a = v % 256 := by
  subst h
  simp only [write_mem_word, upd]
  simp


/-- A word write leaves other byte addresses unchanged. -/
theorem write_mem_word_other (m : Nat → Nat) (w v a : Nat)
    (h1 : a ≠ 2 * (w % 4096)) (h2 : a ≠ 2 * (w % 4096) + 1) :
    write_mem_word m w v a = m a := by
  simp only [write_mem_word, upd]
  rw [if_neg h2, if_neg h1]


/-- Serving `new_packet`, the payload bytes and the final `write_header`
commits exactly once, adds `2 + ⌈n/2⌉` words to the FIFO count, and leaves
the record's bytes (big-endian length, big-endian timestamp, payload) at
consecutive byte addresses from the aligned start. -/
theorem framer_writes_packet_record (payload : List Nat) (fs : FramerState) (n t : Nat)
    (hn : n = payload.length) (h1 : 1 ≤ n) (h2 : n ≤ 1027) :
    (framer_run fs
        (MemOp.newPacket :: (payload.map MemOp.writeByte ++ [MemOp.writeHeader n t]))).commit_count =
      fs.commit_count + 1 ∧
    (framer_run fs
        (MemOp.newPacket :: (payload.map MemOp.writeByte ++ [MemOp.writeHeader n t]))).fifo_word_count =
      fs.fifo_word_count + (2 + (n + 1) / 2) ∧
    (∀ j, j < 4 + n →
      (framer_run fs
          (MemOp.newPacket :: (payload.map MemOp.writeByte ++ [MemOp.writeHeader n t]))).mem
          (((fs.write_byte_addr + fs.write_byte_addr % 2) % MEM_SIZE_BYTES + j) % MEM_SIZE_BYTES) =
        (packet_record n t payload).getD j 0 % 256) := by
  simp only [MEM_SIZE_BYTES]
  simp only [framer_run]
  rw [framer_run_append]
  set a0 := (fs.write_byte_addr + fs.write_byte_addr % 2) % 8192 with ha0def
  have ha0lt : a0 < 8192 := by omega
  have ha0ev : a0 % 2 = 0 := by omega
  set fs1 := framer_step fs MemOp.newPacket with hfs1def
  have f1 : fs1.write_byte_addr = (a0 + 4) % 8192 := by
    rw [hfs1def, ha0def]
    rfl
  have f2 : fs1.header_word_addr = a0 / 2 := by
    rw [hfs1def, ha0def]
    rfl
  have f3 : fs1.fifo_words_pending = 2 := rfl
  have f4 : fs1.commit_count = fs.commit_count := rfl
  have f5 : fs1.fifo_word_count = fs.fifo_word_count := rfl
  have f6 : fs1.mem = fs.mem := rfl
  obtain ⟨⟨hb1, hb2, hb3, hb4, hb5⟩, hbmem, hbpres⟩ :=
    framer_run_bytes payload fs1
      (by rw [f1]; simp only [MEM_SIZE_BYTES]; omega)
      (by simp only [MEM_SIZE_BYTES]; omega)
      (by rw [f3]; omega)
  set fs2 := framer_run fs1 (payload.map MemOp.writeByte) with hfs2def
  have g_hdr : fs2.header_word_addr = a0 / 2 := by rw [hb2, f2]
  have g_pend : fs2.fifo_words_pending = 2 + (n + 1) / 2 := by
    rw [hb5, f3, f1,
      evens_from_congr payload.length ((a0 + 4) % 8192) (a0 + 4)
        (by omega),
      evens_from_eq]
    rw [if_pos (by omega), ← hn]
    omega
  have g_commit : fs2.commit_count = fs.commit_count := by rw [hb3, f4]
  have g_fifo : fs2.fifo_word_count = fs.fifo_word_count := by rw [hb4, f5]
  have hrun1 : ∀ (g : FramerState) (op : MemOp), framer_run g [op] = framer_step g op :=
    fun g op => rfl
  rw [hrun1]
  have hH1 : (framer_step fs2 (MemOp.writeHeader n t)).commit_count = fs2.commit_count + 1 := rfl
  have hH2 : (framer_step fs2 (MemOp.writeHeader n t)).fifo_word_count =
      fs2.fifo_word_count + fs2.fifo_words_pending := rfl
  have hH3 : (framer_step fs2 (MemOp.writeHeader n t)).mem =
      write_mem_word (write_mem_word fs2.mem fs2.header_word_addr n)
        (fs2.header_word_addr + 1) t := rfl
  simp only [MEM_SIZE_BYTES] at hb1 hb5 hbmem hbpres
  refine ⟨?_, ?_, ?_⟩
  · rw [hH1, g_commit]
  · rw [hH2, g_fifo, g_pend]
  · intro j hj
    rw [hH3, g_hdr]
    match j, hj with
    | 0, _ =>
      rw [show (a0 + 0) % 8192 = a0 from by omega]
      rw [write_mem_word_other _ _ _ _ (by omega) (by omega)]
      rw [write_mem_word_hi _ _ _ _ (by omega)]
      simp only [packet_record, List.cons_append, List.getD_cons_zero]
      omega
    | 1, _ =>
      rw [show (a0 + 1) % 8192 = a0 + 1 from by omega]
      rw [write_mem_word_other _ _ _ _ (by omega) (by omega)]
      rw [write_mem_word_lo _ _ _ _ (by omega)]
      simp only [packet_record, List.cons_append, List.getD_cons_succ, List.getD_cons_zero]
      omega
    | 2, _ =>
      rw [write_mem_word_hi _ _ _ _ (by omega)]
      simp only [packet_record, List.cons_append, List.getD_cons_succ, List.getD_cons_zero]
      omega
    | 3, _ =>
      rw [write_mem_word_lo _ _ _ _ (by omega)]
      simp only [packet_record, List.cons_append, List.getD_cons_succ, List.getD_cons_zero]
      omega
    | (k + 4), hj =>
      have hk : k < payload.length := by omega
      rw [write_mem_word_other _ _ _ _ (by omega) (by omega)]
      rw [write_mem_word_other _ _ _ _ (by omega) (by omega)]
      have hmemk := hbmem k hk
      rw [f1] at hmemk
      rw [show ((a0 + 4) % 8192 + k) % 8192 = (a0 + (k + 4)) % 8192 from by omega] at hmemk
      rw [hmemk]
      have hrec : (packet_record n t payload).getD (k + 4) 0 = payload.getD k 0 := rfl
      rw [hrec]


/-- One `CAPTURE_PACKET` cycle with a byte on the stream (trigger subsystem
quiet) raises exactly one `write_packet` request and counts the byte. -/
theorem analyzerStep_capture_byte (b : Nat) (s : AState) (hf : s.fsm = AFsm.capturePacket) :
    analyzerStep (capture_in b) s =
      ({ s with
          current_time := (s.current_time + 1) % 2 ^ 16,
          trigger_fire_strobe := false,
          pending_stage_compare := false,
          stage_mismatch :=
            (if s.pending_stage_compare && pending_stage_mismatch s then true
              else s.stage_mismatch),
          packet_size := (s.packet_size + 1) % 2 ^ 16,
          packet_byte_index := (s.packet_byte_index + 1) % 2 ^ 11 },
       [MemOp.writeByte (b % 256)]) := by
  have hw : stage_window_hit (capture_in b) s = false := by
    simp [stage_window_hit, active_stage_valid, capture_in, inQuiet]
  have e1 : (capture_in b).rx_valid = true := rfl
  have e2 : (capture_in b).rx_active = true := rfl
  have e3 : (capture_in b).buffer_full = false := rfl
  have e4 : (capture_in b).rx_data = b := rfl
  have e5 : (capture_in b).pattern_write_en = false := rfl
  have e6 : (capture_in b).mask_write_en = false := rfl
  simp [analyzerStep, hf, step_capture_packet, e1, e2, e3, e4, e5, e6, hw]


/-- The end-of-packet cycle raises exactly one `write_header` request
carrying `packet_size` and `packet_time`. -/
theorem analyzerStep_capture_end (s : AState) (hf : s.fsm = AFsm.capturePacket) :
    (analyzerStep capture_end s).2 = [MemOp.writeHeader s.packet_size s.packet_time] := by
  have hm : full_match capture_end s = false := by
    simp [full_match, active_stage_valid, capture_end, inQuiet]
  have e1 : capture_end.rx_valid = false := rfl
  have e2 : capture_end.rx_active = false := rfl
  simp [analyzerStep, hf, step_capture_packet, e1, e2, hm]


/-- The `AWAIT_PACKET` cycle on which `rx_active` rises (no pending trigger
event) raises exactly one `new_packet` request, latches `packet_time` and
resets the packet counters. -/
theorem analyzerStep_new_packet (b : Nat) (s : AState) (hf : s.fsm = AFsm.awaitPacket)
    (hp : s.pending_trigger_event = false) :
    analyzerStep (capture_in b) s =
      ({ s with
          fsm := AFsm.capturePacket, current_time := 0, packet_size := 0,
          packet_time := s.current_time, packet_byte_index := 0, stage_mismatch := false,
          stage_match_count := 0, pending_stage_compare := false, seq_expected_stage := 0,
          trigger_fire_strobe := false },
       [MemOp.newPacket]) := by
  have hw : stage_window_hit (capture_in b) s = false := by
    simp [stage_window_hit, active_stage_valid, capture_in, inQuiet]
  have e1 : (capture_in b).capture_enable = true := rfl
  have e2 : (capture_in b).rx_active = true := rfl
  have e3 : (capture_in b).session_valid = true := rfl
  have e4 : (capture_in b).speed_selection = 0 := rfl
  have e5 : (capture_in b).trig_enable = false := rfl
  have e6 : (capture_in b).pattern_write_en = false := rfl
  have e7 : (capture_in b).mask_write_en = false := rfl
  simp [analyzerStep, hf, step_await_packet, hp, hw, USBAnalyzerSpeed_AUTO,
    e1, e2, e3, e4, e5, e6, e7]


/-- Capturing a whole packet raises one `write_packet` per byte followed by
the `write_header` request with the accumulated size. -/
theorem analyzer_capture_ops (payload : List Nat) :
    ∀ s : AState, s.fsm = AFsm.capturePacket → s.packet_size + payload.length < 2 ^ 16 →
      (analyzer_run s (payload.map capture_in ++ [capture_end])).2 =
        payload.map (fun b => MemOp.writeByte (b % 256)) ++
          [MemOp.writeHeader (s.packet_size + payload.length) s.packet_time] := by
  induction payload with
  | nil =>
    intro s hf hsz
    simp only [List.map_nil, List.nil_append, List.length_nil, Nat.add_zero, analyzer_run]
    rw [analyzerStep_capture_end s hf]
    rfl
  | cons b rest ih =>
    intro s hf hsz
    simp only [List.length_cons] at hsz
    simp only [List.map_cons, List.cons_append, List.length_cons, analyzer_run]
    have hstep := analyzerStep_capture_byte b s hf
    have hops : (analyzerStep (capture_in b) s).2 = [MemOp.writeByte (b % 256)] := by
      rw [hstep]
    have hf1 : (analyzerStep (capture_in b) s).1.fsm = AFsm.capturePacket := by
      rw [hstep]
      exact hf
    have hsz1 : (analyzerStep (capture_in b) s).1.packet_size = (s.packet_size + 1) % 2 ^ 16 := by
      rw [hstep]
    have hpt1 : (analyzerStep (capture_in b) s).1.packet_time = s.packet_time := by
      rw [hstep]
    simp only [List.append_eq]
    rw [hops, ih _ hf1 (by rw [hsz1]; omega), hsz1, hpt1]
    have harith : (s.packet_size + 1) % 2 ^ 16 + rest.length = s.packet_size + (rest.length + 1) := by
      omega
    rw [harith]
    rfl

/-- Every byte of a packet record is below 256. -/
theorem packet_record_getD_lt (payload : List Nat) (n t : Nat) (hb : ∀ b ∈ payload, b < 256) :
    ∀ j, (packet_record n t payload).getD j 0 < 256 := by
  intro j
  match j with
  | 0 => simp [packet_record]; omega
  | 1 => simp [packet_record]; omega
  | 2 => simp [packet_record]; omega
  | 3 => simp [packet_record]; omega
  | k + 4 =>
    have hk : (packet_record n t payload).getD (k + 4) 0 = payload.getD k 0 := rfl
    rw [hk]
    rcases Nat.lt_or_ge k payload.length with h | h
    · rw [List.getD_eq_getElem payload 0 h]
      exact hb _ (List.getElem_mem h)
    · rw [List.getD_eq_default payload 0 h]
      omega


/-- C6: for every packet of `n ≥ 1` bytes delivered between `rx_active`
rising and falling while capturing (one byte per cycle, ring buffer not
full, packet within the USB maximum of 1027 bytes), the capture FSM raises
exactly `new_packet`, one `write_packet` per byte and one `write_header`;
serving them commits exactly one record whose bytes are the 2-byte
big-endian length `n`, the 2-byte big-endian timestamp, then the `n`
payload bytes in order, and the committed word count covers one padding
byte exactly when `n` is odd. -/
theorem C6_packet_record_framing (payload : List Nat) (s : AState) (fs : FramerState)
    (hf : s.fsm = AFsm.awaitPacket) (hpend : s.pending_trigger_event = false)
    (h1 : 1 ≤ payload.length) (h2 : payload.length ≤ 1027)
    (hb : ∀ b ∈ payload, b < 256) :
    (analyzer_run s
        (capture_in (payload.headD 0) :: (payload.map capture_in ++ [capture_end]))).2 =
      MemOp.newPacket :: (payload.map MemOp.writeByte ++
        [MemOp.writeHeader payload.length s.current_time]) ∧
    (framer_run fs (MemOp.newPacket :: (payload.map MemOp.writeByte ++
        [MemOp.writeHeader payload.length s.current_time]))).commit_count =
      fs.commit_count + 1 ∧
    (framer_run fs (MemOp.newPacket :: (payload.map MemOp.writeByte ++
        [MemOp.writeHeader payload.length s.current_time]))).fifo_word_count =
      fs.fifo_word_count + (2 + (payload.length + 1) / 2) ∧
    (∀ j, j < 4 + payload.length →
      (framer_run fs (MemOp.newPacket :: (payload.map MemOp.writeByte ++
          [MemOp.writeHeader payload.length s.current_time]))).mem
          (((fs.write_byte_addr + fs.write_byte_addr % 2) % MEM_SIZE_BYTES + j) % MEM_SIZE_BYTES) =
        (packet_record payload.length s.current_time payload).getD j 0) ∧
    2 * (2 + (payload.length + 1) / 2) = (4 + payload.length) + payload.length % 2 := by
  have hmap : payload.map (fun b => MemOp.writeByte (b % 256)) = payload.map MemOp.writeByte := by
    apply List.map_congr_left
    intro a hamem
    rw [Nat.mod_eq_of_lt (hb a hamem)]
  obtain ⟨hc, hw, hm⟩ :=
    framer_writes_packet_record payload fs payload.length s.current_time rfl h1 h2
  refine ⟨?_, hc, hw, ?_, by omega⟩
  · simp only [analyzer_run]
    have hstep := analyzerStep_new_packet (payload.headD 0) s hf hpend
    have hops : (analyzerStep (capture_in (payload.headD 0)) s).2 = [MemOp.newPacket] := by
      rw [hstep]
    have hf1 : (analyzerStep (capture_in (payload.headD 0)) s).1.fsm = AFsm.capturePacket := by
      rw [hstep]
    have hsz1 : (analyzerStep (capture_in (payload.headD 0)) s).1.packet_size = 0 := by
      rw [hstep]
    have hpt1 : (analyzerStep (capture_in (payload.headD 0)) s).1.packet_time = s.current_time := by
      rw [hstep]
    rw [hops]
    rw [analyzer_capture_ops payload _ hf1 (by rw [hsz1]; omega)]
    rw [hsz1, hpt1, hmap]
    simp
  · intro j hj
    rw [hm j hj, Nat.mod_eq_of_lt (packet_record_getD_lt payload payload.length s.current_time hb j)]

/-- C6 witness: the theorem applied to the single-byte packet `[0xAB]`
captured at timestamp 3 into a reset framer. -/
theorem C6_witness :
    (analyzer_run c6_st
        (capture_in (([0xAB] : List Nat).headD 0) ::
          (([0xAB] : List Nat).map capture_in ++ [capture_end]))).2 =
      MemOp.newPacket :: (([0xAB] : List Nat).map MemOp.writeByte ++
        [MemOp.writeHeader ([0xAB] : List Nat).length c6_st.current_time]) ∧
    (framer_run framerReset (MemOp.newPacket :: (([0xAB] : List Nat).map MemOp.writeByte ++
        [MemOp.writeHeader ([0xAB] : List Nat).length c6_st.current_time]))).commit_count =
      framerReset.commit_count + 1 ∧
    (framer_run framerReset (MemOp.newPacket :: (([0xAB] : List Nat).map MemOp.writeByte ++
        [MemOp.writeHeader ([0xAB] : List Nat).length c6_st.current_time]))).fifo_word_count =
      framerReset.fifo_word_count + (2 + (([0xAB] : List Nat).length + 1) / 2) ∧
    (∀ j, j < 4 + ([0xAB] : List Nat).length →
      (framer_run framerReset (MemOp.newPacket :: (([0xAB] : List Nat).map MemOp.writeByte ++
          [MemOp.writeHeader ([0xAB] : List Nat).length c6_st.current_time]))).mem
          (((framerReset.write_byte_addr + framerReset.write_byte_addr % 2) % MEM_SIZE_BYTES + j) %
            MEM_SIZE_BYTES) =
        (packet_record ([0xAB] : List Nat).length c6_st.current_time [0xAB]).getD j 0) ∧
    2 * (2 + (([0xAB] : List Nat).length + 1) / 2) =
      (4 + ([0xAB] : List Nat).length) + ([0xAB] : List Nat).length % 2 :=
  C6_packet_record_framing [0xAB] c6_st framerReset rfl rfl (by decide) (by decide) (by decide)

end Cyn
